import Mathlib

/-!
Verification development for the `status-poll` repository.

The repository contains three variants of a status-polling engine:

* `src/main.js`: `pollForStatus(getStatus, statusResultSuccess, statusResultAbort)`
  returns a launcher; the launcher-level closure holds `testCount`, which is
  therefore shared by every session launched from the same launcher.  Each
  attempt increments `testCount`, calls `getStatus`, and in the completion
  callback first calls `conf.onTic(res, testCount)` when present, then computes
  `canStillTry = testCount < conf.maxTries`,
  `succeeded = statusResultSuccess(res.status)`,
  `aborted = statusResultAbort(res.status)`; when
  `canStillTry && !succeeded && !aborted` it schedules the next attempt after
  `conf.pollTime`, otherwise it fires `onSuccess` when `succeeded` and `onFail`
  otherwise.

* `src/unnamed/part_000` (first file): a two-argument
  `pollForStatus(getStatus, statusResultTest)` whose terminal branch tests
  `res.status === 'ready'` directly instead of consulting the predicate.

* `src/unnamed/part_000` (second file): `createStatusPollFunction` with a
  per-session `testCount` (declared inside the returned launcher) and predicates
  that receive the whole result object `res` rather than `res.status`; `onTic`
  is called after the predicates are evaluated.

The embedding below models the observable behaviour of one poll session as the
list of events it produces: fetch invocations, `onTic` calls, predicate
applications, `setTimeout` scheduling, and the terminal `onSuccess`/`onFail`
call.  The asynchronous fetcher is modelled as a function from the session's
fetch-invocation index to the delivered result, which captures exactly the
assumption that the fetcher invokes its completion callback once per
invocation.  JavaScript numbers are modelled as rationals together with `NaN`
(`typeof NaN === 'number'`, and every `<` comparison involving `NaN` is false);
missing properties and non-number values get their own constructors.
-/

/-- Model of a JavaScript value in a configuration slot: a finite number, `NaN`
(which still has `typeof === 'number'`), an absent property (`undefined`), or
some non-number value. -/
inductive JSVal : Type where
  | num (q : ℚ)
  | nan
  | absent
  | other
deriving DecidableEq, Repr

/-- Model of the JavaScript test `typeof v === 'number'`; `NaN` is a number. -/
def isNumberJS : JSVal → Bool
  | JSVal.num _ => true
  | JSVal.nan => true
  | _ => false

/-- Model of the JavaScript comparison `v < 1`; comparisons involving `NaN`
(and non-numbers, which coerce to `NaN` under `<`) are false. -/
def jsLtOne : JSVal → Bool
  | JSVal.num q => decide (q < 1)
  | _ => false

/-- Model of the JavaScript comparison `testCount < v` for a natural-number
counter `t`; comparisons involving `NaN` (and non-numbers) are false. -/
def jsLtNat (t : ℕ) : JSVal → Bool
  | JSVal.num q => decide ((t : ℚ) < q)
  | _ => false

/-- Natural-number ceiling of a configuration value, used to bound the number
of attempts a session can make: `jsLtNat t v = true` iff `t < jsCeil v`. -/
def jsCeil : JSVal → ℕ
  | JSVal.num q => ⌈q⌉₊
  | _ => 0

/-- Model of the object delivered by the `main.js` / two-argument fetchers: it
has a `status` string property plus arbitrary further content `payload`. -/
structure StatusRes (α : Type) : Type where
  status : String
  payload : α
deriving DecidableEq, Repr

/-- Model of the launcher's configuration object `conf`.  `maxTries` and
`pollTime` are the two slots the engine validates and writes back; `onTic`
records whether `typeof conf.onTic === 'function'`; `rest` stands for every
other property of the object (`onSuccess`, `onFail`, anything else), which the
engine reads but never reassigns. -/
structure Conf (E : Type) : Type where
  maxTries : JSVal
  pollTime : JSVal
  onTic : Bool
  rest : E
deriving DecidableEq, Repr

/-- Transcription of the configuration validation shared by all three variants
(`main.js` lines 56-65): if `typeof conf.maxTries !== 'number' || conf.maxTries < 1`
then `conf.maxTries = 10`; if `typeof conf.pollTime !== 'number' || conf.pollTime < 1`
then `conf.pollTime = 100`.  The source mutates `conf` in place; this function
returns the mutated object. -/
def validateConf {E : Type} (conf : Conf E) : Conf E :=
  let conf :=
    if !(isNumberJS conf.maxTries) || jsLtOne conf.maxTries then
      { conf with maxTries := JSVal.num 10 }
    else conf
  if !(isNumberJS conf.pollTime) || jsLtOne conf.pollTime then
    { conf with pollTime := JSVal.num 100 }
  else conf

/-- Observable events of one poll session.  `ρ` is the type of the fetched
result as passed to `onTic`; `π` is the type of the value actually passed to
the success/abort predicates (`String` for the variants that pass
`res.status`, the result type itself for `createStatusPollFunction`). -/
inductive Ev (ρ π : Type) : Type where
  | fetch
  | tick (res : ρ) (n : ℕ)
  | predS (x : π)
  | predA (x : π)
  | sched (d : JSVal)
  | success
  | fail
deriving DecidableEq, Repr

/-- Whether an event is a terminal-callback invocation. -/
def isTermEv {ρ π : Type} : Ev ρ π → Bool
  | Ev.success => true
  | Ev.fail => true
  | _ => false

/-- Whether an event is a fetch invocation. -/
def isFetchEv {ρ π : Type} : Ev ρ π → Bool
  | Ev.fetch => true
  | _ => false

/-- Number of terminal-callback invocations in a trace. -/
def nTerm {ρ π : Type} (tr : List (Ev ρ π)) : ℕ :=
  tr.countP isTermEv

/-- Number of fetch invocations in a trace. -/
def nFetch {ρ π : Type} (tr : List (Ev ρ π)) : ℕ :=
  tr.countP isFetchEv

/-- The arguments passed to the success predicate, in order. -/
def predSIns {ρ π : Type} (tr : List (Ev ρ π)) : List π :=
  tr.filterMap fun e => match e with | Ev.predS x => some x | _ => none

/-- The arguments passed to the abort predicate, in order. -/
def predAIns {ρ π : Type} (tr : List (Ev ρ π)) : List π :=
  tr.filterMap fun e => match e with | Ev.predA x => some x | _ => none

/-- The `(result, attemptNumber)` argument pairs passed to `onTic`, in order. -/
def tickPairs {ρ π : Type} (tr : List (Ev ρ π)) : List (ρ × ℕ) :=
  tr.filterMap fun e => match e with | Ev.tick r n => some (r, n) | _ => none

/-- The attempt numbers passed to `onTic`, in order. -/
def tickNums {ρ π : Type} (tr : List (Ev ρ π)) : List ℕ :=
  (tickPairs tr).map Prod.snd

/-- One completed attempt of `main.js`'s `performStatusCheck` (lines 68-97),
given the already incremented `testCount = t` and the result `res` delivered by
`getStatus`: `onTic(res, testCount)` fires first when present, then
`canStillTry`, `succeeded = statusResultSuccess(res.status)` and
`aborted = statusResultAbort(res.status)` are computed; the returned flag says
whether `setTimeout(performStatusCheck, conf.pollTime)` was called (attempt
continues) as opposed to `onSuccess`/`onFail` firing. -/
def attemptMain {α E : Type} (statusResultSuccess statusResultAbort : String → Bool)
    (conf : Conf E) (res : StatusRes α) (t : ℕ) :
    List (Ev (StatusRes α) String) × Bool :=
  let ticEvs := if conf.onTic then [Ev.tick res t] else []
  let canStillTry := jsLtNat t conf.maxTries
  let succeeded := statusResultSuccess res.status
  let aborted := statusResultAbort res.status
  if canStillTry && !succeeded && !aborted then
    (Ev.fetch :: ticEvs ++
      [Ev.predS res.status, Ev.predA res.status, Ev.sched conf.pollTime], true)
  else
    (Ev.fetch :: ticEvs ++
      [Ev.predS res.status, Ev.predA res.status,
       if succeeded then Ev.success else Ev.fail], false)

/-- The attempt loop of `main.js`'s `performStatusCheck`: from current shared
`testCount` and session fetch index `i`, run attempts until termination,
returning the event trace and the final `testCount`.  `fuel` is an upper bound
on the remaining attempts (supplied adequately by `pollForStatus`); the
`fuel = 0` branch is unreachable under an adequate bound. -/
def performStatusCheck {α E : Type} (getStatus : ℕ → StatusRes α)
    (statusResultSuccess statusResultAbort : String → Bool) (conf : Conf E) :
    ℕ → ℕ → ℕ → List (Ev (StatusRes α) String) × ℕ
  | 0, testCount, _ => ([], testCount)
  | fuel + 1, testCount, i =>
    let t := testCount + 1
    let a := attemptMain statusResultSuccess statusResultAbort conf (getStatus i) t
    if a.2 then
      let next := performStatusCheck getStatus statusResultSuccess statusResultAbort
        conf fuel t (i + 1)
      (a.1 ++ next.1, next.2)
    else
      (a.1, t)

/-- One invocation of the launcher returned by `main.js`'s
`pollForStatus(getStatus, statusResultSuccess, statusResultAbort)`:
`testCount` is the launcher-closure counter at the time of the call (`0` for a
fresh launcher; it is shared between all sessions of one launcher), `conf` is
validated (mutated in place) and the attempt cycle begins.  Returns the
session's event trace and the launcher counter after the session ends. -/
def pollForStatus {α E : Type} (getStatus : ℕ → StatusRes α)
    (statusResultSuccess statusResultAbort : String → Bool)
    (testCount : ℕ) (conf : Conf E) : List (Ev (StatusRes α) String) × ℕ :=
  let conf := validateConf conf
  performStatusCheck getStatus statusResultSuccess statusResultAbort conf
    (jsCeil conf.maxTries + 1) testCount 0

/-- One completed attempt of `createStatusPollFunction`'s `performStatusCheck`
(`part_000` lines 186-216): the predicates receive the whole result `res`, and
`onTic(res, testCount)` fires after the predicates are evaluated but before the
continuation/termination branch. -/
def attemptCSP {ρ E : Type} (statusResultSuccess statusResultAbort : ρ → Bool)
    (conf : Conf E) (res : ρ) (t : ℕ) : List (Ev ρ ρ) × Bool :=
  let canStillTry := jsLtNat t conf.maxTries
  let succeeded := statusResultSuccess res
  let aborted := statusResultAbort res
  let ticEvs := if conf.onTic then [Ev.tick res t] else []
  if canStillTry && !succeeded && !aborted then
    (Ev.fetch :: Ev.predS res :: Ev.predA res :: (ticEvs ++ [Ev.sched conf.pollTime]), true)
  else
    (Ev.fetch :: Ev.predS res :: Ev.predA res ::
      (ticEvs ++ [if succeeded then Ev.success else Ev.fail]), false)

/-- The attempt loop of `createStatusPollFunction`'s `performStatusCheck`:
`testCount` is session-local (it doubles as the fetch-invocation index, since
each attempt performs exactly one fetch). -/
def performStatusCheckCSP {ρ E : Type} (getStatus : ℕ → ρ)
    (statusResultSuccess statusResultAbort : ρ → Bool) (conf : Conf E) :
    ℕ → ℕ → List (Ev ρ ρ) × ℕ
  | 0, testCount => ([], testCount)
  | fuel + 1, testCount =>
    let t := testCount + 1
    let a := attemptCSP statusResultSuccess statusResultAbort conf (getStatus testCount) t
    if a.2 then
      let next := performStatusCheckCSP getStatus statusResultSuccess statusResultAbort
        conf fuel t
      (a.1 ++ next.1, next.2)
    else
      (a.1, t)

/-- One invocation of the launcher returned by
`createStatusPollFunction(getStatus, statusResultSuccess, statusResultAbort)`
(`part_000` lines 165-218): `testCount` is declared inside the launcher, so
every session starts from `0`. -/
def createStatusPollFunction {ρ E : Type} (getStatus : ℕ → ρ)
    (statusResultSuccess statusResultAbort : ρ → Bool) (conf : Conf E) :
    List (Ev ρ ρ) × ℕ :=
  let conf := validateConf conf
  performStatusCheckCSP getStatus statusResultSuccess statusResultAbort conf
    (jsCeil conf.maxTries + 1) 0

/-- The attempt loop of the two-argument `pollForStatus` variant (`part_000`
lines 44-87): `testCount` is incremented inside the completion callback, the
continuation test is `testCount < conf.maxTries && !statusResultTest(res.status)`,
and the terminal branch tests `res.status === 'ready'` directly.  There is no
`onTic` in this variant. -/
def performStatusCheckP2 {α E : Type} (getStatus : ℕ → StatusRes α)
    (statusResultTest : String → Bool) (conf : Conf E) :
    ℕ → ℕ → ℕ → List (Ev (StatusRes α) String) × ℕ
  | 0, testCount, _ => ([], testCount)
  | fuel + 1, testCount, i =>
    let res := getStatus i
    let t := testCount + 1
    if jsLtNat t conf.maxTries && !(statusResultTest res.status) then
      let next := performStatusCheckP2 getStatus statusResultTest conf fuel t (i + 1)
      (Ev.fetch :: Ev.sched conf.pollTime :: next.1, next.2)
    else
      (Ev.fetch :: [if res.status == "ready" then Ev.success else Ev.fail], t)

/-- One invocation of the launcher returned by the two-argument
`pollForStatus(getStatus, statusResultTest)` (`part_000` lines 44-87), with
`testCount` the launcher-closure counter at call time. -/
def pollForStatusP2 {α E : Type} (getStatus : ℕ → StatusRes α)
    (statusResultTest : String → Bool) (testCount : ℕ) (conf : Conf E) :
    List (Ev (StatusRes α) String) × ℕ :=
  let conf := validateConf conf
  performStatusCheckP2 getStatus statusResultTest conf
    (jsCeil conf.maxTries + 1) testCount 0

/-- The demo success predicate of `main.js` (lines 108-110). -/
def successCondition (status : String) : Bool :=
  status == "ready"

/-- The demo abort predicate of `main.js` (lines 111-113). -/
def abortCondition (status : String) : Bool :=
  status == "abort"

/-- The threshold of the demo fetcher: `readyOnTest = 10` (`main.js` line 6). -/
def readyOnTest : ℕ := 10

/-- The demo fetcher `getStatus` of `main.js` (lines 14-23), started from a
fresh `reqCount = 0`: on its `(i+1)`-st invocation (`i` zero-based) it has
`reqCount = i + 1` after the increment, and delivers status `'notReady'` while
`reqCount < readyOnTest` and `'ready'` from the tenth invocation on. -/
def getStatusDemo (i : ℕ) : StatusRes Unit :=
  ⟨if i + 1 < readyOnTest then "notReady" else "ready", ()⟩

/-- A fetcher whose status is always `'notReady'`. -/
def notReadyFetch (_ : ℕ) : StatusRes Unit :=
  ⟨"notReady", ()⟩

/-!
Two sessions launched from one launcher.  JavaScript is single-threaded and
each attempt (one `performStatusCheck` activation plus the synchronous part of
its callback) runs to completion, so an execution of two concurrent sessions is
an interleaving of atomic attempts.  A schedule is the list of which session
performs its next attempt at each point in time; a step addressed to a session
whose terminal callback has already fired does nothing (that session has no
pending timer).  Launch-time configuration validation touches only the
session's own `conf` object, so it is performed up front in the initial state.
-/

/-- Per-session state for two sessions of one `main.js` `pollForStatus`
launcher: the validated configuration, the session's fetcher, its private
fetch-invocation index, and whether it is still running. -/
structure SessM (α E : Type) : Type where
  conf : Conf E
  getStatus : ℕ → StatusRes α
  i : ℕ
  alive : Bool

/-- State of two sessions of one `main.js` launcher: the launcher-closure
`testCount` (declared outside the returned launch function, `main.js` line 50,
hence shared by both sessions) plus the two session states. -/
structure MachM (α E : Type) : Type where
  testCount : ℕ
  s1 : SessM α E
  s2 : SessM α E

/-- One scheduled step of the two-session `main.js` machine: the addressed
session (`false` for the first, `true` for the second), if still running,
performs one attempt of `performStatusCheck`, incrementing the shared
`testCount`.  Events are tagged with the session that produced them. -/
def stepM {α E : Type} (statusResultSuccess statusResultAbort : String → Bool)
    (st : MachM α E) (which : Bool) :
    List (Bool × Ev (StatusRes α) String) × MachM α E :=
  let s := if which then st.s2 else st.s1
  if s.alive then
    let t := st.testCount + 1
    let a := attemptMain statusResultSuccess statusResultAbort s.conf (s.getStatus s.i) t
    let s' : SessM α E := { s with i := s.i + 1, alive := a.2 }
    (a.1.map (fun e => (which, e)),
      if which then { st with testCount := t, s2 := s' }
      else { st with testCount := t, s1 := s' })
  else ([], st)

/-- Run the two-session `main.js` machine over a schedule. -/
def runM {α E : Type} (statusResultSuccess statusResultAbort : String → Bool) :
    List Bool → MachM α E → List (Bool × Ev (StatusRes α) String)
  | [], _ => []
  | w :: sched, st =>
    let stp := stepM statusResultSuccess statusResultAbort st w
    stp.1 ++ runM statusResultSuccess statusResultAbort sched stp.2

/-- Initial state of the two-session `main.js` machine: launcher counter `0`,
each session's configuration validated at launch. -/
def initM {α E : Type} (c1 : Conf E) (f1 : ℕ → StatusRes α)
    (c2 : Conf E) (f2 : ℕ → StatusRes α) : MachM α E :=
  ⟨0, ⟨validateConf c1, f1, 0, true⟩, ⟨validateConf c2, f2, 0, true⟩⟩

/-- Per-session state for two sessions of one `createStatusPollFunction`
launcher: here `testCount` is declared inside the launch function (`part_000`
line 171), so each session carries its own counter (which doubles as its
fetch-invocation index). -/
structure SessC (ρ E : Type) : Type where
  conf : Conf E
  getStatus : ℕ → ρ
  testCount : ℕ
  alive : Bool

/-- State of two sessions of one `createStatusPollFunction` launcher: no
launcher-level mutable state exists. -/
structure MachC (ρ E : Type) : Type where
  s1 : SessC ρ E
  s2 : SessC ρ E

/-- One scheduled step of the two-session `createStatusPollFunction` machine. -/
def stepC {ρ E : Type} (statusResultSuccess statusResultAbort : ρ → Bool)
    (st : MachC ρ E) (which : Bool) : List (Bool × Ev ρ ρ) × MachC ρ E :=
  let s := if which then st.s2 else st.s1
  if s.alive then
    let t := s.testCount + 1
    let a := attemptCSP statusResultSuccess statusResultAbort s.conf
      (s.getStatus s.testCount) t
    let s' : SessC ρ E := { s with testCount := t, alive := a.2 }
    (a.1.map (fun e => (which, e)),
      if which then { st with s2 := s' } else { st with s1 := s' })
  else ([], st)

/-- Run the two-session `createStatusPollFunction` machine over a schedule. -/
def runC {ρ E : Type} (statusResultSuccess statusResultAbort : ρ → Bool) :
    List Bool → MachC ρ E → List (Bool × Ev ρ ρ)
  | [], _ => []
  | w :: sched, st =>
    let stp := stepC statusResultSuccess statusResultAbort st w
    stp.1 ++ runC statusResultSuccess statusResultAbort sched stp.2

/-- Initial state of the two-session `createStatusPollFunction` machine. -/
def initC {ρ E : Type} (c1 : Conf E) (f1 : ℕ → ρ) (c2 : Conf E) (f2 : ℕ → ρ) :
    MachC ρ E :=
  ⟨⟨validateConf c1, f1, 0, true⟩, ⟨validateConf c2, f2, 0, true⟩⟩

/-- The events produced by one of the two sessions, in order. -/
def projSide {ρ π : Type} (b : Bool) (tr : List (Bool × Ev ρ π)) : List (Ev ρ π) :=
  tr.filterMap fun we => if we.1 = b then some we.2 else none

/-- Configuration of the `main.js` demo launch (lines 116-128): `maxTries: 20`,
`pollTime: 100`, with an `onTic` handler present. -/
def demoConf : Conf Unit :=
  ⟨JSVal.num 20, JSVal.num 100, true, ()⟩

/-- First-session configuration for the session-interference counterexample:
`maxTries: 3`, no `onTic`. -/
def confA : Conf Unit :=
  ⟨JSVal.num 3, JSVal.num 100, false, ()⟩

/-- Second-session configuration for the session-interference counterexample:
`maxTries: 5`, with `onTic` so the attempt numbering is observable. -/
def confB : Conf Unit :=
  ⟨JSVal.num 5, JSVal.num 100, true, ()⟩

/-- A success predicate looking for a status other than `'ready'`. -/
def doneTest (s : String) : Bool :=
  s == "done"

/-- A fetcher whose status is always `'done'`. -/
def doneFetch (_ : ℕ) : StatusRes Unit :=
  ⟨"done", ()⟩

/-- A fetcher delivering results with status `'x'` and payload `1`. -/
def fetchX1 (_ : ℕ) : StatusRes ℕ :=
  ⟨"x", 1⟩

/-- A fetcher delivering results with the same status `'x'` but payload `2`. -/
def fetchX2 (_ : ℕ) : StatusRes ℕ :=
  ⟨"x", 2⟩

/-- A one-attempt configuration with `onTic` present. -/
def confTic1 : Conf Unit :=
  ⟨JSVal.num 1, JSVal.num 100, true, ()⟩

/-- A three-attempt configuration. -/
def confW5 : Conf Unit :=
  ⟨JSVal.num 3, JSVal.num 100, false, ()⟩

/-- A configuration with `maxTries` absent. -/
def confAbsent : Conf Unit :=
  ⟨JSVal.absent, JSVal.num 100, false, ()⟩

/-- The configuration `confAbsent` with the default `maxTries = 10` filled in. -/
def conf10 : Conf Unit :=
  ⟨JSVal.num 10, JSVal.num 100, false, ()⟩

/-- A configuration with `pollTime: 0` (invalid, below `1`). -/
def confPT0 : Conf Unit :=
  ⟨JSVal.num 10, JSVal.num 0, false, ()⟩

/-- A configuration with the non-integer `maxTries: 2.5`. -/
def confHalf : Conf Unit :=
  ⟨JSVal.num (5 / 2), JSVal.num 100, false, ()⟩

/-- A predicate that never holds. -/
def falsePred (_ : String) : Bool :=
  false

/-!
Helper lemmas.
-/

theorem jsLtNat_iff (t : ℕ) (v : JSVal) : jsLtNat t v = true ↔ t < jsCeil v := by
  cases v with
  | num q =>
    simp only [jsLtNat, jsCeil, decide_eq_true_eq]
    exact Nat.lt_ceil.symm
  | nan => simp [jsLtNat, jsCeil]
  | absent => simp [jsLtNat, jsCeil]
  | other => simp [jsLtNat, jsCeil]

theorem attemptMain_snd {α E : Type} (sRS sRA : String → Bool) (conf : Conf E)
    (res : StatusRes α) (t : ℕ) :
    (attemptMain sRS sRA conf res t).2
      = (jsLtNat t conf.maxTries && !sRS res.status && !sRA res.status) := by
  unfold attemptMain
  cases h : (jsLtNat t conf.maxTries && !sRS res.status && !sRA res.status) <;>
    simp [h]

theorem attemptMain_ne_nil {α E : Type} (sRS sRA : String → Bool) (conf : Conf E)
    (res : StatusRes α) (t : ℕ) :
    (attemptMain sRS sRA conf res t).1 ≠ [] := by
  unfold attemptMain
  cases h : (jsLtNat t conf.maxTries && !sRS res.status && !sRA res.status) <;>
    simp [h]

theorem nTerm_attemptMain {α E : Type} (sRS sRA : String → Bool) (conf : Conf E)
    (res : StatusRes α) (t : ℕ) :
    nTerm (attemptMain sRS sRA conf res t).1
      = if (attemptMain sRS sRA conf res t).2 then 0 else 1 := by
  unfold attemptMain
  cases hl : jsLtNat t conf.maxTries <;> cases hs : sRS res.status <;>
    cases ha : sRA res.status <;> cases ht : conf.onTic <;>
      simp [hl, hs, ha, ht, nTerm, isTermEv]

theorem nFetch_attemptMain {α E : Type} (sRS sRA : String → Bool) (conf : Conf E)
    (res : StatusRes α) (t : ℕ) :
    nFetch (attemptMain sRS sRA conf res t).1 = 1 := by
  unfold attemptMain
  cases hl : jsLtNat t conf.maxTries <;> cases hs : sRS res.status <;>
    cases ha : sRA res.status <;> cases ht : conf.onTic <;>
      simp [hl, hs, ha, ht, nFetch, isFetchEv]

theorem predSIns_attemptMain {α E : Type} (sRS sRA : String → Bool) (conf : Conf E)
    (res : StatusRes α) (t : ℕ) :
    predSIns (attemptMain sRS sRA conf res t).1 = [res.status] := by
  unfold attemptMain
  cases hl : jsLtNat t conf.maxTries <;> cases hs : sRS res.status <;>
    cases ha : sRA res.status <;> cases ht : conf.onTic <;>
      simp [hl, hs, ha, ht, predSIns]

theorem predAIns_attemptMain {α E : Type} (sRS sRA : String → Bool) (conf : Conf E)
    (res : StatusRes α) (t : ℕ) :
    predAIns (attemptMain sRS sRA conf res t).1 = [res.status] := by
  unfold attemptMain
  cases hl : jsLtNat t conf.maxTries <;> cases hs : sRS res.status <;>
    cases ha : sRA res.status <;> cases ht : conf.onTic <;>
      simp [hl, hs, ha, ht, predAIns]

theorem tickPairs_attemptMain {α E : Type} (sRS sRA : String → Bool) (conf : Conf E)
    (res : StatusRes α) (t : ℕ) :
    tickPairs (attemptMain sRS sRA conf res t).1
      = if conf.onTic then [(res, t)] else [] := by
  unfold attemptMain
  cases hl : jsLtNat t conf.maxTries <;> cases hs : sRS res.status <;>
    cases ha : sRA res.status <;> cases ht : conf.onTic <;>
      simp [hl, hs, ha, ht, tickPairs]

theorem getLast_attemptMain {α E : Type} (sRS sRA : String → Bool) (conf : Conf E)
    (res : StatusRes α) (t : ℕ)
    (h : (attemptMain sRS sRA conf res t).2 = false) :
    (attemptMain sRS sRA conf res t).1.getLast?
      = some (if sRS res.status then Ev.success else Ev.fail) := by
  rw [attemptMain_snd] at h
  unfold attemptMain
  cases hl : jsLtNat t conf.maxTries <;> cases hs : sRS res.status <;>
    cases ha : sRA res.status <;> cases ht : conf.onTic <;>
      simp [hl, hs, ha, ht] at h ⊢

theorem nTerm_append {ρ π : Type} (l₁ l₂ : List (Ev ρ π)) :
    nTerm (l₁ ++ l₂) = nTerm l₁ + nTerm l₂ := by
  simp [nTerm, List.countP_append]

theorem nFetch_append {ρ π : Type} (l₁ l₂ : List (Ev ρ π)) :
    nFetch (l₁ ++ l₂) = nFetch l₁ + nFetch l₂ := by
  simp [nFetch, List.countP_append]

theorem predSIns_append {ρ π : Type} (l₁ l₂ : List (Ev ρ π)) :
    predSIns (l₁ ++ l₂) = predSIns l₁ ++ predSIns l₂ := by
  simp [predSIns, List.filterMap_append]

theorem predAIns_append {ρ π : Type} (l₁ l₂ : List (Ev ρ π)) :
    predAIns (l₁ ++ l₂) = predAIns l₁ ++ predAIns l₂ := by
  simp [predAIns, List.filterMap_append]

theorem tickPairs_append {ρ π : Type} (l₁ l₂ : List (Ev ρ π)) :
    tickPairs (l₁ ++ l₂) = tickPairs l₁ ++ tickPairs l₂ := by
  simp [tickPairs, List.filterMap_append]

theorem attemptMain_cont_lt {α E : Type} {sRS sRA : String → Bool} {conf : Conf E}
    {res : StatusRes α} {t : ℕ}
    (hA : (attemptMain sRS sRA conf res t).2 = true) :
    t < jsCeil conf.maxTries := by
  have h2 := attemptMain_snd sRS sRA conf res t
  rw [hA] at h2
  have h3 : jsLtNat t conf.maxTries = true := by
    cases h4 : jsLtNat t conf.maxTries
    · rw [h4] at h2; simp at h2
    · rfl
  exact (jsLtNat_iff _ _).mp h3

theorem nTerm_performStatusCheck {α E : Type} (getStatus : ℕ → StatusRes α)
    (sRS sRA : String → Bool) (conf : Conf E) :
    ∀ (fuel t i : ℕ), 1 ≤ fuel → jsCeil conf.maxTries ≤ t + fuel →
      nTerm (performStatusCheck getStatus sRS sRA conf fuel t i).1 = 1 := by
  intro fuel
  induction fuel with
  | zero => intro t i hf _; omega
  | succ fuel ih =>
    intro t i _ hc
    simp only [performStatusCheck]
    cases hA : (attemptMain sRS sRA conf (getStatus i) (t + 1)).2 with
    | false =>
      simp only [hA, Bool.false_eq_true, if_false]
      rw [nTerm_attemptMain, hA]
      simp
    | true =>
      have hlt : t + 1 < jsCeil conf.maxTries := attemptMain_cont_lt hA
      simp only [hA, if_true]
      rw [nTerm_append, nTerm_attemptMain, hA]
      simp only [if_true]
      rw [ih (t + 1) (i + 1) (by omega) (by omega)]

theorem last_performStatusCheck {α E : Type} (getStatus : ℕ → StatusRes α)
    (sRS sRA : String → Bool) (conf : Conf E) :
    ∀ (fuel t i : ℕ), 1 ≤ fuel → jsCeil conf.maxTries ≤ t + fuel →
      ∃ m, nFetch (performStatusCheck getStatus sRS sRA conf fuel t i).1 = m + 1 ∧
        (performStatusCheck getStatus sRS sRA conf fuel t i).1.getLast?
          = some (if sRS (getStatus (i + m)).status then Ev.success else Ev.fail) := by
  intro fuel
  induction fuel with
  | zero => intro t i hf _; omega
  | succ fuel ih =>
    intro t i _ hc
    simp only [performStatusCheck]
    cases hA : (attemptMain sRS sRA conf (getStatus i) (t + 1)).2 with
    | false =>
      refine ⟨0, ?_, ?_⟩
      · simp only [hA, Bool.false_eq_true, if_false]
        rw [nFetch_attemptMain]
      · simp only [hA, Bool.false_eq_true, if_false, Nat.add_zero]
        exact getLast_attemptMain sRS sRA conf (getStatus i) (t + 1) hA
    | true =>
      have hlt : t + 1 < jsCeil conf.maxTries := attemptMain_cont_lt hA
      obtain ⟨m, hm1, hm2⟩ := ih (t + 1) (i + 1) (by omega) (by omega)
      refine ⟨m + 1, ?_, ?_⟩
      · simp only [hA, if_true]
        rw [nFetch_append, nFetch_attemptMain, hm1]
        omega
      · have hne : (performStatusCheck getStatus sRS sRA conf fuel (t + 1) (i + 1)).1 ≠ [] := by
          intro hnil
          rw [hnil] at hm1
          simp [nFetch] at hm1
        simp only [hA, if_true]
        rw [List.getLast?_append_of_ne_nil _ hne, hm2]
        have : i + 1 + m = i + (m + 1) := by omega
        rw [this]

theorem nFetch_le_performStatusCheck {α E : Type} (getStatus : ℕ → StatusRes α)
    (sRS sRA : String → Bool) (conf : Conf E) :
    ∀ (fuel t i : ℕ),
      nFetch (performStatusCheck getStatus sRS sRA conf fuel t i).1
        ≤ max 1 (jsCeil conf.maxTries - t) := by
  intro fuel
  induction fuel with
  | zero =>
    intro t i
    simp only [performStatusCheck]
    simp [nFetch]
  | succ fuel ih =>
    intro t i
    simp only [performStatusCheck]
    cases hA : (attemptMain sRS sRA conf (getStatus i) (t + 1)).2 with
    | false =>
      simp only [hA, Bool.false_eq_true, if_false]
      rw [nFetch_attemptMain]
      omega
    | true =>
      have hlt : t + 1 < jsCeil conf.maxTries := attemptMain_cont_lt hA
      simp only [hA, if_true]
      rw [nFetch_append, nFetch_attemptMain]
      have := ih (t + 1) (i + 1)
      omega

theorem allFalse_performStatusCheck {α E : Type} (getStatus : ℕ → StatusRes α)
    (sRS sRA : String → Bool) (conf : Conf E)
    (hS : ∀ k, sRS (getStatus k).status = false)
    (hAb : ∀ k, sRA (getStatus k).status = false) :
    ∀ (fuel t i : ℕ), 1 ≤ fuel → jsCeil conf.maxTries ≤ t + fuel →
      nFetch (performStatusCheck getStatus sRS sRA conf fuel t i).1
          = max 1 (jsCeil conf.maxTries - t) ∧
        (performStatusCheck getStatus sRS sRA conf fuel t i).1.getLast?
          = some Ev.fail := by
  intro fuel
  induction fuel with
  | zero => intro t i hf _; omega
  | succ fuel ih =>
    intro t i _ hc
    have hsnd := attemptMain_snd sRS sRA conf (getStatus i) (t + 1)
    rw [hS i, hAb i] at hsnd
    simp only [Bool.not_false, Bool.and_true] at hsnd
    simp only [performStatusCheck]
    cases hL : jsLtNat (t + 1) conf.maxTries with
    | false =>
      rw [hL] at hsnd
      have hceil : ¬ (t + 1 < jsCeil conf.maxTries) := by
        intro h
        rw [(jsLtNat_iff (t + 1) conf.maxTries).mpr h] at hL
        exact Bool.true_eq_false.mp hL
      constructor
      · simp only [hsnd, Bool.false_eq_true, if_false]
        rw [nFetch_attemptMain]
        omega
      · simp only [hsnd, Bool.false_eq_true, if_false]
        rw [getLast_attemptMain sRS sRA conf (getStatus i) (t + 1) hsnd, hS i]
        simp
    | true =>
      rw [hL] at hsnd
      have hlt : t + 1 < jsCeil conf.maxTries := (jsLtNat_iff _ _).mp hL
      obtain ⟨h1, h2⟩ := ih (t + 1) (i + 1) (by omega) (by omega)
      constructor
      · simp only [hsnd, if_true]
        rw [nFetch_append, nFetch_attemptMain, h1]
        omega
      · have hne : (performStatusCheck getStatus sRS sRA conf fuel (t + 1) (i + 1)).1 ≠ [] := by
          intro hnil
          rw [hnil] at h2
          simp at h2
        simp only [hsnd, if_true]
        rw [List.getLast?_append_of_ne_nil _ hne, h2]

theorem predSIns_performStatusCheck {α E : Type} (getStatus : ℕ → StatusRes α)
    (sRS sRA : String → Bool) (conf : Conf E) :
    ∀ (fuel t i : ℕ),
      predSIns (performStatusCheck getStatus sRS sRA conf fuel t i).1
        = (List.range (nFetch (performStatusCheck getStatus sRS sRA conf fuel t i).1)).map
            (fun k => (getStatus (i + k)).status) := by
  intro fuel
  induction fuel with
  | zero =>
    intro t i
    simp only [performStatusCheck]
    simp [predSIns, nFetch]
  | succ fuel ih =>
    intro t i
    simp only [performStatusCheck]
    cases hA : (attemptMain sRS sRA conf (getStatus i) (t + 1)).2 with
    | false =>
      simp only [hA, Bool.false_eq_true, if_false]
      rw [predSIns_attemptMain, nFetch_attemptMain]
      rw [show List.range 1 = [0] from rfl, List.map_cons, List.map_nil]
      simp
    | true =>
      simp only [hA, if_true]
      rw [predSIns_append, predSIns_attemptMain, nFetch_append, nFetch_attemptMain,
        ih (t + 1) (i + 1)]
      rw [Nat.add_comm 1 (nFetch _), List.range_succ_eq_map, List.map_cons, List.map_map]
      simp only [List.singleton_append, Nat.add_zero, List.cons.injEq, true_and]
      apply List.map_congr_left
      intro k _
      have hik : i + 1 + k = i + (k + 1) := by omega
      simp [Function.comp, hik, Nat.succ_eq_add_one]

theorem predAIns_performStatusCheck {α E : Type} (getStatus : ℕ → StatusRes α)
    (sRS sRA : String → Bool) (conf : Conf E) :
    ∀ (fuel t i : ℕ),
      predAIns (performStatusCheck getStatus sRS sRA conf fuel t i).1
        = (List.range (nFetch (performStatusCheck getStatus sRS sRA conf fuel t i).1)).map
            (fun k => (getStatus (i + k)).status) := by
  intro fuel
  induction fuel with
  | zero =>
    intro t i
    simp only [performStatusCheck]
    simp [predAIns, nFetch]
  | succ fuel ih =>
    intro t i
    simp only [performStatusCheck]
    cases hA : (attemptMain sRS sRA conf (getStatus i) (t + 1)).2 with
    | false =>
      simp only [hA, Bool.false_eq_true, if_false]
      rw [predAIns_attemptMain, nFetch_attemptMain]
      rw [show List.range 1 = [0] from rfl, List.map_cons, List.map_nil]
      simp
    | true =>
      simp only [hA, if_true]
      rw [predAIns_append, predAIns_attemptMain, nFetch_append, nFetch_attemptMain,
        ih (t + 1) (i + 1)]
      rw [Nat.add_comm 1 (nFetch _), List.range_succ_eq_map, List.map_cons, List.map_map]
      simp only [List.singleton_append, Nat.add_zero, List.cons.injEq, true_and]
      apply List.map_congr_left
      intro k _
      have hik : i + 1 + k = i + (k + 1) := by omega
      simp [Function.comp, hik, Nat.succ_eq_add_one]

theorem tickPairs_performStatusCheck {α E : Type} (getStatus : ℕ → StatusRes α)
    (sRS sRA : String → Bool) (conf : Conf E) :
    ∀ (fuel t i : ℕ),
      tickPairs (performStatusCheck getStatus sRS sRA conf fuel t i).1
        = if conf.onTic then
            (List.range (nFetch (performStatusCheck getStatus sRS sRA conf fuel t i).1)).map
              (fun k => (getStatus (i + k), t + 1 + k))
          else [] := by
  intro fuel
  induction fuel with
  | zero =>
    intro t i
    simp only [performStatusCheck]
    simp [tickPairs, nFetch]
  | succ fuel ih =>
    intro t i
    simp only [performStatusCheck]
    cases hA : (attemptMain sRS sRA conf (getStatus i) (t + 1)).2 with
    | false =>
      simp only [hA, Bool.false_eq_true, if_false]
      rw [tickPairs_attemptMain, nFetch_attemptMain]
      cases ht : conf.onTic with
      | false => simp
      | true =>
        simp only [if_true]
        rw [show List.range 1 = [0] from rfl, List.map_cons, List.map_nil]
        simp
    | true =>
      simp only [hA, if_true]
      rw [tickPairs_append, tickPairs_attemptMain, nFetch_append, nFetch_attemptMain,
        ih (t + 1) (i + 1)]
      cases ht : conf.onTic with
      | false => simp
      | true =>
        simp only [if_true]
        rw [Nat.add_comm 1 (nFetch _), List.range_succ_eq_map, List.map_cons, List.map_map]
        simp only [List.singleton_append, Nat.add_zero, List.cons.injEq, true_and]
        apply List.map_congr_left
        intro k _
        have hik : i + 1 + k = i + (k + 1) := by omega
        have htk : t + 1 + 1 + k = t + 1 + (k + 1) := by omega
        simp [Function.comp, hik, htk, Nat.succ_eq_add_one]

theorem attemptCSP_snd {ρ E : Type} (sRS sRA : ρ → Bool) (conf : Conf E)
    (res : ρ) (t : ℕ) :
    (attemptCSP sRS sRA conf res t).2
      = (jsLtNat t conf.maxTries && !sRS res && !sRA res) := by
  unfold attemptCSP
  cases h : (jsLtNat t conf.maxTries && !sRS res && !sRA res) <;> simp [h]

theorem nFetch_attemptCSP {ρ E : Type} (sRS sRA : ρ → Bool) (conf : Conf E)
    (res : ρ) (t : ℕ) :
    nFetch (attemptCSP sRS sRA conf res t).1 = 1 := by
  unfold attemptCSP
  cases hl : jsLtNat t conf.maxTries <;> cases hs : sRS res <;>
    cases ha : sRA res <;> cases ht : conf.onTic <;>
      simp [hl, hs, ha, ht, nFetch, isFetchEv]

theorem predSIns_attemptCSP {ρ E : Type} (sRS sRA : ρ → Bool) (conf : Conf E)
    (res : ρ) (t : ℕ) :
    predSIns (attemptCSP sRS sRA conf res t).1 = [res] := by
  unfold attemptCSP
  cases hl : jsLtNat t conf.maxTries <;> cases hs : sRS res <;>
    cases ha : sRA res <;> cases ht : conf.onTic <;>
      simp [hl, hs, ha, ht, predSIns]

theorem predAIns_attemptCSP {ρ E : Type} (sRS sRA : ρ → Bool) (conf : Conf E)
    (res : ρ) (t : ℕ) :
    predAIns (attemptCSP sRS sRA conf res t).1 = [res] := by
  unfold attemptCSP
  cases hl : jsLtNat t conf.maxTries <;> cases hs : sRS res <;>
    cases ha : sRA res <;> cases ht : conf.onTic <;>
      simp [hl, hs, ha, ht, predAIns]

theorem tickPairs_attemptCSP {ρ E : Type} (sRS sRA : ρ → Bool) (conf : Conf E)
    (res : ρ) (t : ℕ) :
    tickPairs (attemptCSP sRS sRA conf res t).1
      = if conf.onTic then [(res, t)] else [] := by
  unfold attemptCSP
  cases hl : jsLtNat t conf.maxTries <;> cases hs : sRS res <;>
    cases ha : sRA res <;> cases ht : conf.onTic <;>
      simp [hl, hs, ha, ht, tickPairs]

theorem predSIns_performStatusCheckCSP {ρ E : Type} (getStatus : ℕ → ρ)
    (sRS sRA : ρ → Bool) (conf : Conf E) :
    ∀ (fuel tc : ℕ),
      predSIns (performStatusCheckCSP getStatus sRS sRA conf fuel tc).1
        = (List.range (nFetch (performStatusCheckCSP getStatus sRS sRA conf fuel tc).1)).map
            (fun k => getStatus (tc + k)) := by
  intro fuel
  induction fuel with
  | zero =>
    intro tc
    simp only [performStatusCheckCSP]
    simp [predSIns, nFetch]
  | succ fuel ih =>
    intro tc
    simp only [performStatusCheckCSP]
    cases hA : (attemptCSP sRS sRA conf (getStatus tc) (tc + 1)).2 with
    | false =>
      simp only [hA, Bool.false_eq_true, if_false]
      rw [predSIns_attemptCSP, nFetch_attemptCSP]
      rw [show List.range 1 = [0] from rfl, List.map_cons, List.map_nil]
      simp
    | true =>
      simp only [hA, if_true]
      rw [predSIns_append, predSIns_attemptCSP, nFetch_append, nFetch_attemptCSP,
        ih (tc + 1)]
      rw [Nat.add_comm 1 (nFetch _), List.range_succ_eq_map, List.map_cons, List.map_map]
      simp only [List.singleton_append, Nat.add_zero, List.cons.injEq, true_and]
      apply List.map_congr_left
      intro k _
      have hik : tc + 1 + k = tc + (k + 1) := by omega
      simp [Function.comp, hik, Nat.succ_eq_add_one]

theorem predAIns_performStatusCheckCSP {ρ E : Type} (getStatus : ℕ → ρ)
    (sRS sRA : ρ → Bool) (conf : Conf E) :
    ∀ (fuel tc : ℕ),
      predAIns (performStatusCheckCSP getStatus sRS sRA conf fuel tc).1
        = (List.range (nFetch (performStatusCheckCSP getStatus sRS sRA conf fuel tc).1)).map
            (fun k => getStatus (tc + k)) := by
  intro fuel
  induction fuel with
  | zero =>
    intro tc
    simp only [performStatusCheckCSP]
    simp [predAIns, nFetch]
  | succ fuel ih =>
    intro tc
    simp only [performStatusCheckCSP]
    cases hA : (attemptCSP sRS sRA conf (getStatus tc) (tc + 1)).2 with
    | false =>
      simp only [hA, Bool.false_eq_true, if_false]
      rw [predAIns_attemptCSP, nFetch_attemptCSP]
      rw [show List.range 1 = [0] from rfl, List.map_cons, List.map_nil]
      simp
    | true =>
      simp only [hA, if_true]
      rw [predAIns_append, predAIns_attemptCSP, nFetch_append, nFetch_attemptCSP,
        ih (tc + 1)]
      rw [Nat.add_comm 1 (nFetch _), List.range_succ_eq_map, List.map_cons, List.map_map]
      simp only [List.singleton_append, Nat.add_zero, List.cons.injEq, true_and]
      apply List.map_congr_left
      intro k _
      have hik : tc + 1 + k = tc + (k + 1) := by omega
      simp [Function.comp, hik, Nat.succ_eq_add_one]

theorem tickPairs_performStatusCheckCSP {ρ E : Type} (getStatus : ℕ → ρ)
    (sRS sRA : ρ → Bool) (conf : Conf E) :
    ∀ (fuel tc : ℕ),
      tickPairs (performStatusCheckCSP getStatus sRS sRA conf fuel tc).1
        = if conf.onTic then
            (List.range (nFetch (performStatusCheckCSP getStatus sRS sRA conf fuel tc).1)).map
              (fun k => (getStatus (tc + k), tc + 1 + k))
          else [] := by
  intro fuel
  induction fuel with
  | zero =>
    intro tc
    simp only [performStatusCheckCSP]
    simp [tickPairs, nFetch]
  | succ fuel ih =>
    intro tc
    simp only [performStatusCheckCSP]
    cases hA : (attemptCSP sRS sRA conf (getStatus tc) (tc + 1)).2 with
    | false =>
      simp only [hA, Bool.false_eq_true, if_false]
      rw [tickPairs_attemptCSP, nFetch_attemptCSP]
      cases ht : conf.onTic with
      | false => simp
      | true =>
        simp only [if_true]
        rw [show List.range 1 = [0] from rfl, List.map_cons, List.map_nil]
        simp
    | true =>
      simp only [hA, if_true]
      rw [tickPairs_append, tickPairs_attemptCSP, nFetch_append, nFetch_attemptCSP,
        ih (tc + 1)]
      cases ht : conf.onTic with
      | false => simp
      | true =>
        simp only [if_true]
        rw [Nat.add_comm 1 (nFetch _), List.range_succ_eq_map, List.map_cons, List.map_map]
        simp only [List.singleton_append, Nat.add_zero, List.cons.injEq, true_and]
        apply List.map_congr_left
        intro k _
        have hik : tc + 1 + k = tc + (k + 1) := by omega
        have htk : tc + 1 + 1 + k = tc + 1 + (k + 1) := by omega
        simp [Function.comp, hik, htk, Nat.succ_eq_add_one]

theorem projSide_append {ρ π : Type} (b : Bool) (l₁ l₂ : List (Bool × Ev ρ π)) :
    projSide b (l₁ ++ l₂) = projSide b l₁ ++ projSide b l₂ := by
  simp [projSide, List.filterMap_append]

theorem projSide_map {ρ π : Type} (b w : Bool) (l : List (Ev ρ π)) :
    projSide b (l.map (fun e => (w, e))) = if w = b then l else [] := by
  induction l with
  | nil => by_cases hw : w = b <;> simp [projSide, hw]
  | cons e l ih =>
    by_cases hw : w = b <;> simp_all [projSide, List.filterMap_cons, hw]

theorem stepC_false_s2 {ρ E : Type} (sRS sRA : ρ → Bool) (st : MachC ρ E) :
    (stepC sRS sRA st false).2.s2 = st.s2 := by
  unfold stepC
  cases h : st.s1.alive <;> simp [h]

theorem stepC_false_projTrue {ρ E : Type} (sRS sRA : ρ → Bool) (st : MachC ρ E) :
    projSide true (stepC sRS sRA st false).1 = [] := by
  unfold stepC
  cases h : st.s1.alive <;> simp [h, projSide_map, projSide]

theorem stepC_true_congr {ρ E : Type} (sRS sRA : ρ → Bool) {st st' : MachC ρ E}
    (h : st.s2 = st'.s2) :
    (stepC sRS sRA st true).1 = (stepC sRS sRA st' true).1 ∧
      (stepC sRS sRA st true).2.s2 = (stepC sRS sRA st' true).2.s2 := by
  simp only [stepC, if_true]
  rw [h]
  cases ha : st'.s2.alive <;> simp [ha, h]

theorem runC_projTrue_congr {ρ E : Type} (sRS sRA : ρ → Bool) :
    ∀ (sched : List Bool) (st st' : MachC ρ E), st.s2 = st'.s2 →
      projSide true (runC sRS sRA sched st)
        = projSide true (runC sRS sRA sched st') := by
  intro sched
  induction sched with
  | nil => intro st st' _; rfl
  | cons w sched ih =>
    intro st st' h
    simp only [runC]
    rw [projSide_append, projSide_append]
    cases w with
    | false =>
      rw [stepC_false_projTrue, stepC_false_projTrue]
      have h2 : (stepC sRS sRA st false).2.s2 = (stepC sRS sRA st' false).2.s2 := by
        rw [stepC_false_s2, stepC_false_s2, h]
      rw [ih _ _ h2]
    | true =>
      obtain ⟨h1, h2⟩ := stepC_true_congr sRS sRA h
      rw [h1, ih _ _ h2]

theorem runC_projTrue_filter {ρ E : Type} (sRS sRA : ρ → Bool) :
    ∀ (sched : List Bool) (st : MachC ρ E),
      projSide true (runC sRS sRA sched st)
        = projSide true (runC sRS sRA (sched.filter (fun w => w)) st) := by
  intro sched
  induction sched with
  | nil => intro st; rfl
  | cons w sched ih =>
    intro st
    cases w with
    | false =>
      simp only [runC, List.filter_cons]
      rw [projSide_append, stepC_false_projTrue]
      simp only [List.nil_append]
      calc projSide true (runC sRS sRA sched (stepC sRS sRA st false).2)
          = projSide true (runC sRS sRA sched st) :=
            runC_projTrue_congr sRS sRA sched _ st (stepC_false_s2 sRS sRA st)
        _ = projSide true (runC sRS sRA (sched.filter (fun w => w)) st) := ih st
    | true =>
      simp only [runC, List.filter_cons]
      rw [projSide_append]
      simp only [runC, projSide_append]
      rw [ih (stepC sRS sRA st true).2]

theorem validateConf_onTic {E : Type} (conf : Conf E) :
    (validateConf conf).onTic = conf.onTic := by
  unfold validateConf
  by_cases h1 : (!(isNumberJS conf.maxTries) || jsLtOne conf.maxTries) = true <;>
    by_cases h2 : (!(isNumberJS conf.pollTime) || jsLtOne conf.pollTime) = true <;>
      simp [h1, h2]

theorem validateConf_rest {E : Type} (conf : Conf E) :
    (validateConf conf).rest = conf.rest := by
  unfold validateConf
  by_cases h1 : (!(isNumberJS conf.maxTries) || jsLtOne conf.maxTries) = true <;>
    by_cases h2 : (!(isNumberJS conf.pollTime) || jsLtOne conf.pollTime) = true <;>
      simp [h1, h2]

theorem validateConf_maxTries {E : Type} (conf : Conf E) :
    (validateConf conf).maxTries
      = if !(isNumberJS conf.maxTries) || jsLtOne conf.maxTries then JSVal.num 10
        else conf.maxTries := by
  unfold validateConf
  by_cases h1 : (!(isNumberJS conf.maxTries) || jsLtOne conf.maxTries) = true <;>
    by_cases h2 : (!(isNumberJS conf.pollTime) || jsLtOne conf.pollTime) = true <;>
      simp [h1, h2]

theorem validateConf_pollTime {E : Type} (conf : Conf E) :
    (validateConf conf).pollTime
      = if !(isNumberJS conf.pollTime) || jsLtOne conf.pollTime then JSVal.num 100
        else conf.pollTime := by
  unfold validateConf
  by_cases h1 : (!(isNumberJS conf.maxTries) || jsLtOne conf.maxTries) = true <;>
    by_cases h2 : (!(isNumberJS conf.pollTime) || jsLtOne conf.pollTime) = true <;>
      simp [h1, h2]

theorem validateConf_idem {E : Type} (conf : Conf E) :
    validateConf (validateConf conf) = validateConf conf := by
  have h10 : (!(isNumberJS (JSVal.num 10)) || jsLtOne (JSVal.num 10)) = false := by
    simp [isNumberJS, jsLtOne]
  have h100 : (!(isNumberJS (JSVal.num 100)) || jsLtOne (JSVal.num 100)) = false := by
    simp [isNumberJS, jsLtOne]
  unfold validateConf
  by_cases h1 : (!(isNumberJS conf.maxTries) || jsLtOne conf.maxTries) = true <;>
    by_cases h2 : (!(isNumberJS conf.pollTime) || jsLtOne conf.pollTime) = true <;>
      simp [h1, h2, h10, h100]

/-!
Claim theorems.
-/

/-- C1: for every run configuration (validated at launch), assuming the fetcher
invokes its completion callback exactly once per invocation (built into the
functional fetcher model), each `main.js` `pollForStatus` session invokes
exactly one of `onSuccess`/`onFail`, exactly once — never both, never
neither.  This holds from any launcher-counter value `testCount`. -/
theorem claimC1 {α E : Type} (getStatus : ℕ → StatusRes α)
    (statusResultSuccess statusResultAbort : String → Bool)
    (testCount : ℕ) (conf : Conf E) :
    nTerm (pollForStatus getStatus statusResultSuccess statusResultAbort
      testCount conf).1 = 1 :=
  nTerm_performStatusCheck getStatus statusResultSuccess statusResultAbort
    (validateConf conf) (jsCeil (validateConf conf).maxTries + 1) testCount 0
    (by omega) (by omega)

/-- C2 counterexample: in the two-argument `pollForStatus` of `part_000`
(lines 72-83), with success predicate `doneTest` (status equals `'done'`) and a
fetcher always delivering status `'done'`, the single attempt's result
satisfies the success predicate, yet `onFail` fires — the terminal branch
tests `res.status === 'ready'` instead of the predicate. -/
theorem claimC2_counterexample :
    doneTest (doneFetch 0).status = true
      ∧ nFetch (pollForStatusP2 doneFetch doneTest 0 confA).1 = 1
      ∧ (pollForStatusP2 doneFetch doneTest 0 confA).1.getLast? = some Ev.fail := by
  decide

/-- C2 amended: in `main.js`'s `pollForStatus`, at termination `onSuccess` is
invoked iff the success predicate holds on the final attempt's result status,
and `onFail` otherwise — so success has priority over abort (the abort
predicate does not enter the terminal decision) and over exhaustion (the test
is on the final result even on the last allowed attempt).  In the two-argument
`part_000` variant, the terminal branch instead tests `res.status === 'ready'`
regardless of the configured predicate. -/
theorem claimC2_amended {α E : Type} (getStatus : ℕ → StatusRes α)
    (statusResultSuccess statusResultAbort : String → Bool)
    (testCount : ℕ) (conf : Conf E) :
    (pollForStatus getStatus statusResultSuccess statusResultAbort testCount conf).1.getLast?
      = some (if statusResultSuccess (getStatus (nFetch (pollForStatus getStatus
            statusResultSuccess statusResultAbort testCount conf).1 - 1)).status
          then Ev.success else Ev.fail) := by
  obtain ⟨m, hm1, hm2⟩ := last_performStatusCheck getStatus statusResultSuccess
    statusResultAbort (validateConf conf) (jsCeil (validateConf conf).maxTries + 1)
    testCount 0 (by omega) (by omega)
  have hpoll : pollForStatus getStatus statusResultSuccess statusResultAbort testCount conf
      = performStatusCheck getStatus statusResultSuccess statusResultAbort
          (validateConf conf) (jsCeil (validateConf conf).maxTries + 1) testCount 0 := rfl
  rw [hpoll, hm1, hm2]
  have h0 : 0 + m = m + 1 - 1 := by omega
  rw [h0]

/-- C8: with the fresh demo fetcher (status `'notReady'` on the first nine
invocations, `'ready'` from the tenth) and the `main.js` demo configuration
(`maxTries: 20`), the session performs exactly 10 fetch invocations, fires
exactly one terminal callback, and that callback is `onSuccess`. -/
theorem claimC8 :
    nFetch (pollForStatus getStatusDemo successCondition abortCondition 0 demoConf).1 = 10
      ∧ nTerm (pollForStatus getStatusDemo successCondition abortCondition 0 demoConf).1 = 1
      ∧ (pollForStatus getStatusDemo successCondition abortCondition 0
          demoConf).1.getLast? = some Ev.success := by
  decide

/-- C3 counterexample: in `main.js`'s `pollForStatus`, `testCount` lives in the
launcher closure (line 50), so sessions of one launcher share it.  Under the
legal schedule in which the first session (with `maxTries: 3`, never ready)
completes its three attempts before the second session's first attempt, the
second session's first `onTic` reports attempt number 4 — its numbering does
not start at 1 — whereas the same configuration launched from a fresh
launcher ticks attempts 1 through 5. -/
theorem claimC3_counterexample :
    tickNums (projSide true (runM successCondition abortCondition
        [false, false, false, true] (initM confA notReadyFetch confB notReadyFetch))) = [4]
      ∧ tickNums (pollForStatus notReadyFetch successCondition abortCondition 0 confB).1
        = [1, 2, 3, 4, 5] := by
  decide

/-- C3 amended: sessions of one `createStatusPollFunction` launcher are
isolated — under every interleaving of two sessions' attempts, the second
session's event sequence does not depend on the first session's configuration
or fetcher, and is unaffected by deleting the first session's steps from the
schedule.  In `main.js`'s `pollForStatus`, by contrast, the shared
launcher-level `testCount` makes a later session's attempt numbering and
attempt budget depend on the earlier session. -/
theorem claimC3_amended {ρ E : Type} (statusResultSuccess statusResultAbort : ρ → Bool)
    (sched : List Bool) (c1 c1' c2 : Conf E) (f1 f1' f2 : ℕ → ρ) :
    projSide true (runC statusResultSuccess statusResultAbort sched (initC c1 f1 c2 f2))
        = projSide true (runC statusResultSuccess statusResultAbort sched
            (initC c1' f1' c2 f2))
      ∧ projSide true (runC statusResultSuccess statusResultAbort sched (initC c1 f1 c2 f2))
        = projSide true (runC statusResultSuccess statusResultAbort
            (sched.filter (fun w => w)) (initC c1 f1 c2 f2)) := by
  constructor
  · exact runC_projTrue_congr statusResultSuccess statusResultAbort sched _ _ rfl
  · exact runC_projTrue_filter statusResultSuccess statusResultAbort sched _

/-- C4 counterexample: in `main.js`'s `pollForStatus` (lines 81-82) the
predicates receive the projection `res.status`, not the result object: two
fetchers whose results differ only outside `.status` produce identical
success- and abort-predicate inputs, while `onTic` — which does receive the
result unmodified — distinguishes them. -/
theorem claimC4_counterexample :
    fetchX1 0 ≠ fetchX2 0
      ∧ predSIns (pollForStatus fetchX1 successCondition abortCondition 0 confTic1).1
        = predSIns (pollForStatus fetchX2 successCondition abortCondition 0 confTic1).1
      ∧ predAIns (pollForStatus fetchX1 successCondition abortCondition 0 confTic1).1
        = predAIns (pollForStatus fetchX2 successCondition abortCondition 0 confTic1).1
      ∧ tickPairs (pollForStatus fetchX1 successCondition abortCondition 0 confTic1).1
        ≠ tickPairs (pollForStatus fetchX2 successCondition abortCondition 0 confTic1).1 := by
  decide

/-- C4 amended: in `createStatusPollFunction` the fetched result is passed
unmodified (as the same opaque value) to the success predicate, to the abort
predicate, and to `onTic`; in `main.js`'s `pollForStatus` only `onTic`
receives the result unmodified, while both predicates receive the projection
`res.status`.  Stated for a fresh session: the k-th fetched result (0-based)
is exactly what the predicates and `onTic` observe on attempt `k + 1`. -/
theorem claimC4_amended {ρ α E : Type} (f : ℕ → ρ)
    (statusResultSuccess statusResultAbort : ρ → Bool)
    (g : ℕ → StatusRes α) (tRS tRA : String → Bool) (conf conf2 : Conf E) :
    (predSIns (createStatusPollFunction f statusResultSuccess statusResultAbort conf).1
        = (List.range (nFetch (createStatusPollFunction f statusResultSuccess
            statusResultAbort conf).1)).map f
      ∧ predAIns (createStatusPollFunction f statusResultSuccess statusResultAbort conf).1
        = (List.range (nFetch (createStatusPollFunction f statusResultSuccess
            statusResultAbort conf).1)).map f
      ∧ tickPairs (createStatusPollFunction f statusResultSuccess statusResultAbort conf).1
        = if conf.onTic then
            (List.range (nFetch (createStatusPollFunction f statusResultSuccess
              statusResultAbort conf).1)).map (fun k => (f k, k + 1))
          else [])
    ∧ (predSIns (pollForStatus g tRS tRA 0 conf2).1
        = (List.range (nFetch (pollForStatus g tRS tRA 0 conf2).1)).map
            (fun k => (g k).status)
      ∧ predAIns (pollForStatus g tRS tRA 0 conf2).1
        = (List.range (nFetch (pollForStatus g tRS tRA 0 conf2).1)).map
            (fun k => (g k).status)
      ∧ tickPairs (pollForStatus g tRS tRA 0 conf2).1
        = if conf2.onTic then
            (List.range (nFetch (pollForStatus g tRS tRA 0 conf2).1)).map
              (fun k => (g k, k + 1))
          else []) := by
  have hdefC : createStatusPollFunction f statusResultSuccess statusResultAbort conf
      = performStatusCheckCSP f statusResultSuccess statusResultAbort (validateConf conf)
          (jsCeil (validateConf conf).maxTries + 1) 0 := rfl
  have hdefM : pollForStatus g tRS tRA 0 conf2
      = performStatusCheck g tRS tRA (validateConf conf2)
          (jsCeil (validateConf conf2).maxTries + 1) 0 0 := rfl
  refine ⟨⟨?_, ?_, ?_⟩, ?_, ?_, ?_⟩
  · rw [hdefC, predSIns_performStatusCheckCSP]
    simp
  · rw [hdefC, predAIns_performStatusCheckCSP]
    simp
  · rw [hdefC, tickPairs_performStatusCheckCSP, validateConf_onTic]
    simp [Nat.add_comm]
  · rw [hdefM, predSIns_performStatusCheck]
    simp
  · rw [hdefM, predAIns_performStatusCheck]
    simp
  · rw [hdefM, tickPairs_performStatusCheck, validateConf_onTic]
    simp [Nat.add_comm]

/-- C5: for every session whose validated `maxTries` is a positive integer
`N`, no more than `N` fetch invocations occur, for every behaviour of the
fetcher and the predicates, from any launcher-counter value. -/
theorem claimC5 {α E : Type} (getStatus : ℕ → StatusRes α)
    (statusResultSuccess statusResultAbort : String → Bool)
    (testCount : ℕ) (conf : Conf E) (N : ℕ)
    (hvm : (validateConf conf).maxTries = JSVal.num (N : ℚ)) (hN : 1 ≤ N) :
    nFetch (pollForStatus getStatus statusResultSuccess statusResultAbort
      testCount conf).1 ≤ N := by
  have hle := nFetch_le_performStatusCheck getStatus statusResultSuccess statusResultAbort
    (validateConf conf) (jsCeil (validateConf conf).maxTries + 1) testCount 0
  have hceil : jsCeil (validateConf conf).maxTries = N := by
    rw [hvm]
    simp [jsCeil]
  rw [hceil] at hle
  have hdef : nFetch (pollForStatus getStatus statusResultSuccess statusResultAbort
        testCount conf).1
      = nFetch (performStatusCheck getStatus statusResultSuccess statusResultAbort
          (validateConf conf) (jsCeil (validateConf conf).maxTries + 1) testCount 0).1 := rfl
  rw [hdef, hceil]
  omega

/-- C5 witness: with `maxTries: 3` and a never-ready fetcher, at most three
fetches occur. -/
theorem claimC5_witness :
    nFetch (pollForStatus notReadyFetch successCondition abortCondition 0 confW5).1 ≤ 3 :=
  claimC5 notReadyFetch successCondition abortCondition 0 confW5 3 (by decide) (by omega)

/-- C6 counterexample: in `main.js`, `testCount` is shared by all sessions of
one launcher (line 50), so the attempt number `onTic` receives is not the
1-based per-session attempt number the claim asserts: after a first session
(`maxTries: 3`, never ready) has run its three attempts, the second session's
first — and here only — attempt invokes `onTic` with attempt number 4, for a
result whose status is `'notReady'`. -/
theorem claimC6_counterexample :
    tickPairs (projSide true (runM successCondition abortCondition
        [false, false, false, true] (initM confA notReadyFetch confB notReadyFetch)))
      = [(StatusRes.mk "notReady" (), 4)]
      ∧ nFetch (projSide true (runM successCondition abortCondition
          [false, false, false, true] (initM confA notReadyFetch confB notReadyFetch))) = 1 := by
  decide

/-- C6 amended: in `main.js`'s `pollForStatus`, when `onTic` is provided it
fires exactly once per attempt — including the terminal attempt — receiving
the attempt's result together with the launcher's shared counter: on a
session's `(k+1)`-st attempt, launched with launcher counter `testCount`, it
receives `testCount + 1 + k`, which is the accurate 1-based attempt number
exactly for a launcher's first session (`testCount = 0`) and continues from
the shared count for later sessions; and the unique terminal callback is the
last event of the session, so every `onTic` invocation precedes any
termination decision. -/
theorem claimC6_amended {α E : Type} (getStatus : ℕ → StatusRes α)
    (statusResultSuccess statusResultAbort : String → Bool) (testCount : ℕ)
    (mx pt : JSVal) (r : E) :
    tickPairs (pollForStatus getStatus statusResultSuccess statusResultAbort testCount
        (Conf.mk mx pt true r)).1
        = (List.range (nFetch (pollForStatus getStatus statusResultSuccess
            statusResultAbort testCount (Conf.mk mx pt true r)).1)).map
            (fun k => (getStatus k, testCount + 1 + k))
      ∧ nTerm (pollForStatus getStatus statusResultSuccess statusResultAbort testCount
          (Conf.mk mx pt true r)).1 = 1
      ∧ ∃ e, (pollForStatus getStatus statusResultSuccess statusResultAbort testCount
            (Conf.mk mx pt true r)).1.getLast? = some e ∧ isTermEv e = true := by
  have hdefM : pollForStatus getStatus statusResultSuccess statusResultAbort testCount
        (Conf.mk mx pt true r)
      = performStatusCheck getStatus statusResultSuccess statusResultAbort
          (validateConf (Conf.mk mx pt true r))
          (jsCeil (validateConf (Conf.mk mx pt true r)).maxTries + 1) testCount 0 := rfl
  refine ⟨?_, ?_, ?_⟩
  · rw [hdefM, tickPairs_performStatusCheck, validateConf_onTic]
    simp
  · exact nTerm_performStatusCheck getStatus statusResultSuccess statusResultAbort
      (validateConf (Conf.mk mx pt true r))
      (jsCeil (validateConf (Conf.mk mx pt true r)).maxTries + 1) testCount 0
      (by omega) (by omega)
  · obtain ⟨m, _, hm2⟩ := last_performStatusCheck getStatus statusResultSuccess
      statusResultAbort (validateConf (Conf.mk mx pt true r))
      (jsCeil (validateConf (Conf.mk mx pt true r)).maxTries + 1) testCount 0
      (by omega) (by omega)
    rw [hdefM]
    refine ⟨_, hm2, ?_⟩
    cases hs : statusResultSuccess (getStatus (0 + m)).status <;> simp [hs, isTermEv]

theorem confExt {E : Type} {a b : Conf E} (h1 : a.maxTries = b.maxTries)
    (h2 : a.pollTime = b.pollTime) (h3 : a.onTic = b.onTic) (h4 : a.rest = b.rest) :
    a = b := by
  cases a; cases b; simp_all

/-- C7: a configuration whose `maxTries` is absent, not a number (in the
`typeof` sense), or less than 1 behaves identically — same event trace, same
final counter — to the same configuration with `maxTries = 10`, and likewise
an absent, non-number or less-than-1 `pollTime` behaves identically to
`pollTime = 100`; the invalid values are silently replaced, with no error
path in the engine. -/
theorem claimC7 :
    (∀ (α E : Type) (getStatus : ℕ → StatusRes α)
        (statusResultSuccess statusResultAbort : String → Bool)
        (testCount : ℕ) (conf : Conf E),
        (conf.maxTries = JSVal.absent ∨ conf.maxTries = JSVal.other ∨
            ∃ q, q < 1 ∧ conf.maxTries = JSVal.num q) →
          pollForStatus getStatus statusResultSuccess statusResultAbort testCount conf
            = pollForStatus getStatus statusResultSuccess statusResultAbort testCount
                { conf with maxTries := JSVal.num 10 })
      ∧ (∀ (α E : Type) (getStatus : ℕ → StatusRes α)
        (statusResultSuccess statusResultAbort : String → Bool)
        (testCount : ℕ) (conf : Conf E),
        (conf.pollTime = JSVal.absent ∨ conf.pollTime = JSVal.other ∨
            ∃ q, q < 1 ∧ conf.pollTime = JSVal.num q) →
          pollForStatus getStatus statusResultSuccess statusResultAbort testCount conf
            = pollForStatus getStatus statusResultSuccess statusResultAbort testCount
                { conf with pollTime := JSVal.num 100 }) := by
  have hinv : ∀ (v : JSVal),
      (v = JSVal.absent ∨ v = JSVal.other ∨ ∃ q, q < 1 ∧ v = JSVal.num q) →
        (!(isNumberJS v) || jsLtOne v) = true := by
    intro v hv
    rcases hv with h | h | ⟨q, hq, h⟩
    · subst h; simp [isNumberJS]
    · subst h; simp [isNumberJS]
    · subst h; simp [isNumberJS, jsLtOne, hq]
  constructor
  · intro α E getStatus sRS sRA testCount conf hv
    have hval : validateConf conf = validateConf { conf with maxTries := JSVal.num 10 } := by
      apply confExt
      · rw [validateConf_maxTries, validateConf_maxTries]
        simp [hinv conf.maxTries hv, ite_self]
      · rw [validateConf_pollTime, validateConf_pollTime]
      · rw [validateConf_onTic, validateConf_onTic]
      · rw [validateConf_rest, validateConf_rest]
    show performStatusCheck getStatus sRS sRA (validateConf conf)
        (jsCeil (validateConf conf).maxTries + 1) testCount 0
      = performStatusCheck getStatus sRS sRA
          (validateConf { conf with maxTries := JSVal.num 10 })
          (jsCeil (validateConf { conf with maxTries := JSVal.num 10 }).maxTries + 1)
          testCount 0
    rw [hval]
  · intro α E getStatus sRS sRA testCount conf hv
    have hval : validateConf conf = validateConf { conf with pollTime := JSVal.num 100 } := by
      apply confExt
      · rw [validateConf_maxTries, validateConf_maxTries]
      · rw [validateConf_pollTime, validateConf_pollTime]
        simp [hinv conf.pollTime hv, ite_self]
      · rw [validateConf_onTic, validateConf_onTic]
      · rw [validateConf_rest, validateConf_rest]
    show performStatusCheck getStatus sRS sRA (validateConf conf)
        (jsCeil (validateConf conf).maxTries + 1) testCount 0
      = performStatusCheck getStatus sRS sRA
          (validateConf { conf with pollTime := JSVal.num 100 })
          (jsCeil (validateConf { conf with pollTime := JSVal.num 100 }).maxTries + 1)
          testCount 0
    rw [hval]

/-- C7 witness: an absent `maxTries` behaves exactly like `maxTries: 10`, and
`pollTime: 0` behaves exactly like `pollTime: 100`, at a concrete launch. -/
theorem claimC7_witness :
    pollForStatus notReadyFetch successCondition abortCondition 0 confAbsent
        = pollForStatus notReadyFetch successCondition abortCondition 0 conf10
      ∧ pollForStatus notReadyFetch successCondition abortCondition 0 confPT0
        = pollForStatus notReadyFetch successCondition abortCondition 0 conf10 :=
  ⟨claimC7.1 Unit Unit notReadyFetch successCondition abortCondition 0 confAbsent
      (Or.inl rfl),
    claimC7.2 Unit Unit notReadyFetch successCondition abortCondition 0 confPT0
      (Or.inr (Or.inr ⟨0, by norm_num, rfl⟩))⟩

/-- C9: launching a session rewrites the caller's configuration object in
place — `validateConf` models exactly the two in-place assignments of
`main.js` lines 56-65: an absent/non-number/less-than-1 `maxTries` becomes
`10` and such a `pollTime` becomes `100`, while valid values and every other
property (`onTic`, and `rest`, which stands for `onSuccess`, `onFail` and any
further properties) are left unchanged; relaunching with the mutated object
behaves identically to the original launch. -/
theorem claimC9 {E : Type} (conf : Conf E) :
    (validateConf conf).onTic = conf.onTic
      ∧ (validateConf conf).rest = conf.rest
      ∧ (validateConf conf).maxTries
          = (if !(isNumberJS conf.maxTries) || jsLtOne conf.maxTries then JSVal.num 10
             else conf.maxTries)
      ∧ (validateConf conf).pollTime
          = (if !(isNumberJS conf.pollTime) || jsLtOne conf.pollTime then JSVal.num 100
             else conf.pollTime)
      ∧ ∀ (α : Type) (getStatus : ℕ → StatusRes α)
          (statusResultSuccess statusResultAbort : String → Bool) (testCount : ℕ),
          pollForStatus getStatus statusResultSuccess statusResultAbort testCount
              (validateConf conf)
            = pollForStatus getStatus statusResultSuccess statusResultAbort
                testCount conf := by
  refine ⟨validateConf_onTic conf, validateConf_rest conf, validateConf_maxTries conf,
    validateConf_pollTime conf, ?_⟩
  intro α getStatus sRS sRA testCount
  show performStatusCheck getStatus sRS sRA (validateConf (validateConf conf))
      (jsCeil (validateConf (validateConf conf)).maxTries + 1) testCount 0
    = performStatusCheck getStatus sRS sRA (validateConf conf)
        (jsCeil (validateConf conf).maxTries + 1) testCount 0
  rw [validateConf_idem]

/-- C10: a non-integer numeric `maxTries` `n ≥ 1` (such as `2.5`) passes
validation unchanged, and in a session where no attempt satisfies the success
or abort predicate, exactly `⌈n⌉` fetch attempts occur and the trace ends
with `onFail`. -/
theorem claimC10 {α E : Type} (getStatus : ℕ → StatusRes α)
    (statusResultSuccess statusResultAbort : String → Bool) (conf : Conf E) (n : ℚ)
    (hmx : conf.maxTries = JSVal.num n) (hn : 1 ≤ n)
    (hS : ∀ k, statusResultSuccess (getStatus k).status = false)
    (hA : ∀ k, statusResultAbort (getStatus k).status = false) :
    (validateConf conf).maxTries = JSVal.num n
      ∧ nFetch (pollForStatus getStatus statusResultSuccess statusResultAbort 0 conf).1
        = ⌈n⌉₊
      ∧ (pollForStatus getStatus statusResultSuccess statusResultAbort 0
          conf).1.getLast? = some Ev.fail := by
  have hmx' : (validateConf conf).maxTries = JSVal.num n := by
    rw [validateConf_maxTries, hmx]
    have : jsLtOne (JSVal.num n) = false := by
      simp [jsLtOne]
      linarith
    simp [isNumberJS, this]
  have hceil : jsCeil (validateConf conf).maxTries = ⌈n⌉₊ := by
    rw [hmx']
    rfl
  have hceil1 : 1 ≤ ⌈n⌉₊ := by
    have : (0 : ℚ) < n := by linarith
    exact Nat.one_le_ceil_iff.mpr this
  obtain ⟨h1, h2⟩ := allFalse_performStatusCheck getStatus statusResultSuccess
    statusResultAbort (validateConf conf) hS hA
    (jsCeil (validateConf conf).maxTries + 1) 0 0 (by omega) (by omega)
  refine ⟨hmx', ?_, ?_⟩
  · have hdef : nFetch (pollForStatus getStatus statusResultSuccess statusResultAbort
          0 conf).1
        = nFetch (performStatusCheck getStatus statusResultSuccess statusResultAbort
            (validateConf conf) (jsCeil (validateConf conf).maxTries + 1) 0 0).1 := rfl
    rw [hdef, h1, hceil]
    omega
  · exact h2

/-- C10 witness: with `maxTries: 2.5` and predicates that never hold, the
value `2.5` survives validation and exactly `⌈2.5⌉ = 3` fetches occur before
`onFail`. -/
theorem claimC10_witness :
    (validateConf confHalf).maxTries = JSVal.num (5 / 2)
      ∧ nFetch (pollForStatus notReadyFetch falsePred falsePred 0 confHalf).1
        = ⌈(5 / 2 : ℚ)⌉₊
      ∧ (pollForStatus notReadyFetch falsePred falsePred 0 confHalf).1.getLast?
        = some Ev.fail :=
  claimC10 notReadyFetch falsePred falsePred confHalf (5 / 2) rfl (by norm_num)
    (fun _ => rfl) (fun _ => rfl)
